import Mathlib

/-!
Verification of the gwi-challenge volunteer/team service core.

The development shallowly embeds the two Store implementations of the
repository:

* `MemStore` models `cmd/gwi-api/api/stores/memorystore/store.go`.
  Go maps become association lists (`List (String × _)`); a Go map
  assignment `m[k] = v` becomes `mapInsert`, a lookup `v, ok := m[k]`
  becomes `mapLookup`.  Mutating operations are written in explicit
  state-passing style `MemStore × Option StoreError`, so that even on an
  error path the resulting store is part of the value and atomicity of
  errors is a real statement, not an artifact of the embedding.
* `PgDB` models `cmd/gwi-api/api/stores/postgrestore/store.go` together
  with the schema of `migrations/sql/1_init.up.sql`: three tables with
  primary-key and foreign-key constraints.  The pgcrypto comparison
  `password = crypt($2, password)` is modelled as string equality of the
  stored credential with the supplied one, which is the semantics of a
  salted one-way hash comparison up to hash collisions.

`GoSlice` keeps the Go distinction between a nil slice and a non-nil
empty slice, which matters for `ListTeamMembers`.

The lock discipline of the in-memory store is modelled by per-operation
event traces (`LockEvent`) transcribed from the code, and a checker
`guarded` that verifies every map access happens under the appropriate
mode of the reader/writer lock `mu`.
-/

/-- StoreError models the three domain error values of package api
(`ErrPasswordMismatch`, `ErrAlreadyExists`, `ErrNotFound`). -/
inductive StoreError where
  | passwordMismatch
  | alreadyExists
  | notFound
deriving DecidableEq

/-- Volunteer mirrors `api.Volunteer`: Email and Password strings. -/
structure Volunteer where
  email : String
  password : String
deriving DecidableEq

/-- Team mirrors `api.Team`: ID and Name strings. -/
structure Team where
  id : String
  name : String
deriving DecidableEq

/-- GoSlice keeps the Go distinction between a nil slice and a non-nil
slice of elements (both may have length 0, but they differ observably,
e.g. for JSON encoding). -/
inductive GoSlice (α : Type) where
  | nil
  | mk (elems : List α)
deriving DecidableEq

/-- GoSlice.toList forgets the nil/non-nil distinction. -/
def GoSlice.toList {α : Type} : GoSlice α → List α
  | .nil => []
  | .mk l => l

/-- mapLookup models the Go map read `v, ok := m[k]`. -/
def mapLookup {α : Type} (k : String) : List (String × α) → Option α
  | [] => none
  | p :: rest => if p.1 = k then some p.2 else mapLookup k rest

/-- mapInsert models the Go map assignment `m[k] = v`: the binding for
`k` is replaced when present, otherwise appended. -/
def mapInsert {α : Type} (k : String) (v : α) : List (String × α) → List (String × α)
  | [] => [(k, v)]
  | p :: rest => if p.1 = k then (k, v) :: rest else p :: mapInsert k v rest

/-- MemStore models the three maps of `memorystore.Store`:
volunteers (email → Volunteer), teams (id → Team), and
teamMembers (team id → set of member emails, the set as a list). -/
structure MemStore where
  volunteers : List (String × Volunteer)
  teams : List (String × Team)
  teamMembers : List (String × List String)
deriving DecidableEq

/-- MemStore.empty models `memorystore.New()`: three empty maps. -/
def MemStore.empty : MemStore := ⟨[], [], []⟩

/-- AuthenticateOrCreateVolunteerAccount transcribes
`memorystore/store.go` lines 27–40: if the email is unknown the
volunteer is stored as given; otherwise the stored password is compared
and `ErrPasswordMismatch` returned on mismatch. -/
def MemStore.AuthenticateOrCreateVolunteerAccount (s : MemStore) (volunteer : Volunteer) :
    MemStore × Option StoreError :=
  match mapLookup volunteer.email s.volunteers with
  | none => ({ s with volunteers := mapInsert volunteer.email volunteer s.volunteers }, none)
  | some v =>
      if v.password ≠ volunteer.password then (s, some .passwordMismatch)
      else (s, none)

/-- GetVolunteerByEmail transcribes `memorystore/store.go` lines 42–54:
not-found on an unknown email, otherwise a copy of the stored volunteer
with the Password field cleared. -/
def MemStore.GetVolunteerByEmail (s : MemStore) (email : String) :
    Except StoreError Volunteer :=
  match mapLookup email s.volunteers with
  | none => .error .notFound
  | some v => .ok { v with password := "" }

/-- CreateTeam transcribes `memorystore/store.go` lines 56–65:
`ErrAlreadyExists` when the id is taken, otherwise the team is stored
verbatim. -/
def MemStore.CreateTeam (s : MemStore) (team : Team) :
    MemStore × Option StoreError :=
  match mapLookup team.id s.teams with
  | some _ => (s, some .alreadyExists)
  | none => ({ s with teams := mapInsert team.id team s.teams }, none)

/-- GetTeamByID transcribes `memorystore/store.go` lines 67–76. -/
def MemStore.GetTeamByID (s : MemStore) (teamID : String) :
    Except StoreError Team :=
  match mapLookup teamID s.teams with
  | none => .error .notFound
  | some t => .ok t

/-- AddTeamMember transcribes `memorystore/store.go` lines 78–104,
including the unconditional final assignment: after the existence
checks, when a member set already exists and the email is absent the
code first performs `members[email] = struct\x7b\x7d\x7b\x7d` (an
in-place insertion into the stored set) and then on line 100
unconditionally rebinds `s.teamMembers[teamID]` to a fresh singleton
set containing only `email`, discarding the previous members. -/
def MemStore.AddTeamMember (s : MemStore) (teamID email : String) :
    MemStore × Option StoreError :=
  match mapLookup teamID s.teams with
  | none => (s, some .notFound)
  | some _ =>
    match mapLookup email s.volunteers with
    | none => (s, some .notFound)
    | some _ =>
      match mapLookup teamID s.teamMembers with
      | some members =>
          if email ∈ members then (s, some .alreadyExists)
          else
            let s1 := { s with teamMembers := mapInsert teamID (members ++ [email]) s.teamMembers }
            ({ s1 with teamMembers := mapInsert teamID [email] s1.teamMembers }, none)
      | none =>
          ({ s with teamMembers := mapInsert teamID [email] s.teamMembers }, none)

/-- derefVolunteers models the loop body of ListTeamMembers
dereferencing `*s.volunteers[email]` for each member email: the whole
run is `none` (a Go nil-pointer panic) when some email is not a
registered volunteer. -/
def derefVolunteers (volunteers : List (String × Volunteer)) : List String → Option (List Volunteer)
  | [] => some []
  | e :: rest =>
      match mapLookup e volunteers, derefVolunteers volunteers rest with
      | some v, some vs => some (v :: vs)
      | _, _ => none

/-- ListTeamMembers transcribes `memorystore/store.go` lines 106–126.
A missing member set reads as the nil map, which ranges as empty; the
slice is created with `make`, hence non-nil (`GoSlice.mk`).  The body
dereferences `s.volunteers[email]` for every member; when some member
email is not a registered volunteer that dereference panics in Go,
modelled by the outer `none`. -/
def MemStore.ListTeamMembers (s : MemStore) (teamID : String) :
    Option (Except StoreError (GoSlice Volunteer)) :=
  match mapLookup teamID s.teams with
  | none => some (.error .notFound)
  | some _ =>
    let emailSet := (mapLookup teamID s.teamMembers).getD []
    match derefVolunteers s.volunteers emailSet with
    | none => none
    | some vols => some (.ok (.mk (vols.map fun v => { v with password := "" })))

/-- RemoveTeamMember transcribes `memorystore/store.go` lines 128–148:
not-found when the team, the member set, or the membership is absent;
otherwise `delete(members, email)` removes the email from the stored
set in place (the key of the possibly now-empty set stays in the
teamMembers map). -/
def MemStore.RemoveTeamMember (s : MemStore) (teamID email : String) :
    MemStore × Option StoreError :=
  match mapLookup teamID s.teams with
  | none => (s, some .notFound)
  | some _ =>
    match mapLookup teamID s.teamMembers with
    | none => (s, some .notFound)
    | some members =>
        if email ∈ members then
          ({ s with teamMembers := mapInsert teamID (members.filter (fun e => e ≠ email)) s.teamMembers }, none)
        else (s, some .notFound)

/-- CountTeamMembers transcribes `memorystore/store.go` lines 150–156:
one entry per key of the teamMembers map, mapped to the size of its
member set (note: every key present in the map is reported, also a key
bound to an empty set). -/
def MemStore.CountTeamMembers (s : MemStore) : List (String × Nat) :=
  s.teamMembers.map fun p => (p.1, p.2.length)

/-- PgDB models the database state of the relational store: the three
tables of `1_init.up.sql`.  volunteers: email (primary key) → stored
credential; teams: id (primary key) → name; team_members: rows
(team_id, volunteer_email) with a composite primary key and foreign
keys into the two other tables. -/
structure PgDB where
  volunteers : List (String × String)
  teams : List (String × String)
  team_members : List (String × String)
deriving DecidableEq

/-- AuthenticateOrCreateVolunteerAccount transcribes
`postgrestore/store.go` lines 30–53: a single upsert that inserts the
account when the email is new (the RETURNING comparison then holds by
construction) and otherwise leaves the row unchanged
(`DO UPDATE SET email = EXCLUDED.email` is the identity) and compares
the stored credential with the supplied password; `crypt`-comparison is
modelled as equality of the stored credential string. -/
def PgDB.AuthenticateOrCreateVolunteerAccount (db : PgDB) (volunteer : Volunteer) :
    Except StoreError PgDB :=
  match mapLookup volunteer.email db.volunteers with
  | none => .ok { db with volunteers := db.volunteers ++ [(volunteer.email, volunteer.password)] }
  | some stored =>
      if stored = volunteer.password then .ok db
      else .error .passwordMismatch

/-- GetVolunteerByEmail transcribes `postgrestore/store.go` lines
55–67: `SELECT *` scans the row into a Volunteer (no rows →
`sql.ErrNoRows` → `ErrNotFound` via queryError), then the Password
field is cleared before returning. -/
def PgDB.GetVolunteerByEmail (db : PgDB) (email : String) :
    Except StoreError Volunteer :=
  match mapLookup email db.volunteers with
  | none => .error .notFound
  | some pw =>
      let scanned : Volunteer := ⟨email, pw⟩
      .ok { scanned with password := "" }

/-- CreateTeam transcribes `postgrestore/store.go` lines 69–88: a plain
INSERT whose primary-key unique violation is mapped to
`ErrAlreadyExists`. -/
def PgDB.CreateTeam (db : PgDB) (team : Team) :
    Except StoreError PgDB :=
  match mapLookup team.id db.teams with
  | some _ => .error .alreadyExists
  | none => .ok { db with teams := db.teams ++ [(team.id, team.name)] }

/-- GetTeamByID transcribes `postgrestore/store.go` lines 90–98. -/
def PgDB.GetTeamByID (db : PgDB) (teamID : String) :
    Except StoreError Team :=
  match mapLookup teamID db.teams with
  | none => .error .notFound
  | some name => .ok ⟨teamID, name⟩

/-- AddTeamMember transcribes `postgrestore/store.go` lines 100–122: a
plain INSERT into team_members; a foreign-key violation (unknown team
or unknown volunteer) is mapped to `ErrNotFound`, the composite
primary-key violation (already a member) to `ErrAlreadyExists`. -/
def PgDB.AddTeamMember (db : PgDB) (teamID email : String) :
    Except StoreError PgDB :=
  if (mapLookup teamID db.teams).isNone || (mapLookup email db.volunteers).isNone then
    .error .notFound
  else if (teamID, email) ∈ db.team_members then
    .error .alreadyExists
  else
    .ok { db with team_members := db.team_members ++ [(teamID, email)] }

/-- ListTeamMembers transcribes `postgrestore/store.go` lines 124–137:
a join of volunteers with team_members filtered by team id, selecting
only `v.email` (so the scanned Volunteer has an empty Password).  There
is no team-existence check, so the operation never yields
`ErrNotFound`; and because `sqlx.Select` only appends to the
destination slice, the slice stays nil when the query returns no rows. -/
def PgDB.ListTeamMembers (db : PgDB) (teamID : String) :
    Except StoreError (GoSlice Volunteer) :=
  let rows := db.team_members.filter fun r => r.1 = teamID
  let emails := rows.filterMap fun r => (mapLookup r.2 db.volunteers).map fun _ => r.2
  match emails with
  | [] => .ok .nil
  | es => .ok (.mk (es.map fun e => ⟨e, ""⟩))

/-- RemoveTeamMember transcribes `postgrestore/store.go` lines 139–156:
a DELETE of the matching row; zero rows affected is mapped to
`ErrNotFound`. -/
def PgDB.RemoveTeamMember (db : PgDB) (teamID email : String) :
    Except StoreError PgDB :=
  let remaining := db.team_members.filter fun r => ¬ (r.1 = teamID ∧ r.2 = email)
  if remaining.length = db.team_members.length then .error .notFound
  else .ok { db with team_members := remaining }

/-- CountTeamMembers transcribes `postgrestore/store.go` lines 158–186:
`SELECT team_id, COUNT(*) FROM team_members GROUP BY team_id` — one
result row per team id that occurs in team_members, carrying the number
of its membership rows; teams without membership rows produce no row. -/
def PgDB.CountTeamMembers (db : PgDB) : List (String × Nat) :=
  (db.team_members.map Prod.fst).dedup.map fun id =>
    (id, (db.team_members.filter fun r => r.1 = id).length)

/-- MutOp names one mutating operation of the in-memory store together
with its arguments. -/
inductive MutOp where
  | auth (volunteer : Volunteer)
  | createTeam (team : Team)
  | addTeamMember (teamID email : String)
  | removeTeamMember (teamID email : String)
deriving DecidableEq

/-- runMutOp dispatches a mutating operation on the in-memory store. -/
def MemStore.runMutOp (s : MemStore) : MutOp → MemStore × Option StoreError
  | .auth v => s.AuthenticateOrCreateVolunteerAccount v
  | .createTeam t => s.CreateTeam t
  | .addTeamMember teamID email => s.AddTeamMember teamID email
  | .removeTeamMember teamID email => s.RemoveTeamMember teamID email

/-- ContextUser models the value bound to the key "user" in the echo
request context, as inspected by `api.GetEmailFromJWTToken`
(`api.go` lines 303–321): the value can be absent (no token was parsed
into the context), present but not a `*jwt.Token`, a token whose claims
are not `jwt.MapClaims` or whose "email" claim is not a string, or a
parsed token binding a string email claim. -/
inductive ContextUser where
  | absent
  | notToken
  | tokenBadClaims
  | tokenEmail (email : String)
deriving DecidableEq

/-- GetEmailFromJWTToken transcribes `api.go` lines 303–321, returning
the Go pair (email, ok): every failure path returns ("", false), and a
parsed token with a string email claim returns (email, true). -/
def GetEmailFromJWTToken : ContextUser → String × Bool
  | .absent => ("", false)
  | .notToken => ("", false)
  | .tokenBadClaims => ("", false)
  | .tokenEmail email => (email, true)

/-- StoreCall records one invocation of a Store membership mutation, so
that a handler run can be checked for which Store operations it
reached. -/
inductive StoreCall where
  | addTeamMember (teamID email : String)
  | removeTeamMember (teamID email : String)
deriving DecidableEq

/-- HandlerOutcome models the response produced by the echo handlers of
the membership-mutation endpoints. -/
inductive HandlerOutcome where
  | unauthorized
  | notFoundResp
  | created
  | okNoop
  | okDone
  | internalErr (e : StoreError)
deriving DecidableEq

/-- PutTeamMemberByEmail transcribes `api.go` lines 244–260 over the
in-memory store: it invokes `store.AddTeamMember` and maps
`ErrNotFound` to a 404 response, `ErrAlreadyExists` to a nil return
(no-op success) and success to 201 Created.  The first component
records the Store calls made. -/
def PutTeamMemberByEmail (s : MemStore) (teamID email : String) :
    List StoreCall × HandlerOutcome :=
  match (s.AddTeamMember teamID email).2 with
  | some .notFound => ([.addTeamMember teamID email], .notFoundResp)
  | some .alreadyExists => ([.addTeamMember teamID email], .okNoop)
  | some e => ([.addTeamMember teamID email], .internalErr e)
  | none => ([.addTeamMember teamID email], .created)

/-- DeleteTeamMemberByEmail transcribes `api.go` lines 262–267 over the
in-memory store: it invokes `store.RemoveTeamMember` and returns its
error verbatim. -/
def DeleteTeamMemberByEmail (s : MemStore) (teamID email : String) :
    List StoreCall × HandlerOutcome :=
  match (s.RemoveTeamMember teamID email).2 with
  | some e => ([.removeTeamMember teamID email], .internalErr e)
  | none => ([.removeTeamMember teamID email], .okDone)

/-- limitEmailToCurrentUser transcribes `main.go` lines 237–248: the
middleware extracts the token email via GetEmailFromJWTToken and the
path parameter email, and rejects with Unauthorized — without invoking
the next handler, hence with an empty list of Store calls — unless the
extraction succeeded and both emails are equal. -/
def limitEmailToCurrentUser (next : Unit → List StoreCall × HandlerOutcome)
    (user : ContextUser) (emailParam : String) :
    List StoreCall × HandlerOutcome :=
  let r := GetEmailFromJWTToken user
  if r.2 = false || r.1 ≠ emailParam then ([], .unauthorized)
  else next ()

/-- putTeamMemberEndpoint models the route
`PUT /v1/teams/:id/members/:email` of `main.go` line 260: the
PutTeamMemberByEmail handler wrapped in limitEmailToCurrentUser. -/
def putTeamMemberEndpoint (s : MemStore) (user : ContextUser) (teamID emailParam : String) :
    List StoreCall × HandlerOutcome :=
  limitEmailToCurrentUser (fun _ => PutTeamMemberByEmail s teamID emailParam) user emailParam

/-- deleteTeamMemberEndpoint models the route
`DELETE /v1/teams/:id/members/:email` of `main.go` line 261: the
DeleteTeamMemberByEmail handler wrapped in limitEmailToCurrentUser. -/
def deleteTeamMemberEndpoint (s : MemStore) (user : ContextUser) (teamID emailParam : String) :
    List StoreCall × HandlerOutcome :=
  limitEmailToCurrentUser (fun _ => DeleteTeamMemberByEmail s teamID emailParam) user emailParam

/-- MapName names the three shared maps of `memorystore.Store`. -/
inductive MapName where
  | volunteers
  | teams
  | teamMembers
deriving DecidableEq

/-- LockEvent is one event in the execution of an in-memory store
operation: acquiring or releasing the reader/writer lock `mu`
(exclusive or shared mode), or an access to one of the three shared
maps (`write` true for a mutation). -/
inductive LockEvent where
  | lock
  | unlock
  | rlock
  | runlock
  | access (m : MapName) (write : Bool)
deriving DecidableEq

/-- guardedFrom folds over an event trace carrying the current lock
state (exclusive held, number of shared holds): a write access is in
order only under the exclusive lock, a read access under the exclusive
or a shared lock. -/
def guardedFrom : Bool → Nat → List LockEvent → Bool
  | _, _, [] => true
  | _, sh, .lock :: rest => guardedFrom true sh rest
  | _, sh, .unlock :: rest => guardedFrom false sh rest
  | excl, sh, .rlock :: rest => guardedFrom excl (sh + 1) rest
  | excl, sh, .runlock :: rest => guardedFrom excl (sh - 1) rest
  | excl, sh, .access _ w :: rest =>
      (if w then excl else excl || decide (0 < sh)) && guardedFrom excl sh rest

/-- guarded checks an event trace starting with no lock held. -/
def guarded (t : List LockEvent) : Bool := guardedFrom false 0 t

/-- AuthenticateOrCreateVolunteerAccountEvents is the event trace of
`memorystore/store.go` lines 27–40: `mu.Lock()` with a deferred
`mu.Unlock()`, a read of volunteers, and a write of volunteers on the
account-creation branch. -/
def MemStore.AuthenticateOrCreateVolunteerAccountEvents (s : MemStore) (volunteer : Volunteer) :
    List LockEvent :=
  [.lock, .access .volunteers false] ++
    (match mapLookup volunteer.email s.volunteers with
     | none => [.access .volunteers true]
     | some _ => []) ++ [.unlock]

/-- GetVolunteerByEmailEvents is the event trace of
`memorystore/store.go` lines 42–54: `mu.RLock()` with a deferred
`mu.RUnlock()` around a read of volunteers. -/
def MemStore.GetVolunteerByEmailEvents (s : MemStore) (email : String) :
    List LockEvent :=
  [.rlock, .access .volunteers false, .runlock]

/-- CreateTeamEvents is the event trace of `memorystore/store.go`
lines 56–65: `mu.Lock()` with a deferred `mu.Unlock()`, a read of
teams, and a write of teams on the creation branch. -/
def MemStore.CreateTeamEvents (s : MemStore) (team : Team) : List LockEvent :=
  [.lock, .access .teams false] ++
    (match mapLookup team.id s.teams with
     | none => [.access .teams true]
     | some _ => []) ++ [.unlock]

/-- GetTeamByIDEvents is the event trace of `memorystore/store.go`
lines 67–76: `mu.RLock()` with a deferred `mu.RUnlock()` around a read
of teams. -/
def MemStore.GetTeamByIDEvents (s : MemStore) (teamID : String) : List LockEvent :=
  [.rlock, .access .teams false, .runlock]

/-- AddTeamMemberEvents is the event trace of `memorystore/store.go`
lines 78–104: `mu.Lock()` with a deferred `mu.Unlock()`; reads of
teams, volunteers and teamMembers along the checks, writes of the
membership structures on the success paths (the in-place set insertion
and the rebinding of the team's member set). -/
def MemStore.AddTeamMemberEvents (s : MemStore) (teamID email : String) : List LockEvent :=
  [.lock, .access .teams false] ++
    (match mapLookup teamID s.teams with
     | none => []
     | some _ =>
       [.access .volunteers false] ++
         (match mapLookup email s.volunteers with
          | none => []
          | some _ =>
            [.access .teamMembers false] ++
              (match mapLookup teamID s.teamMembers with
               | some members =>
                   if email ∈ members then []
                   else [.access .teamMembers true, .access .teamMembers true]
               | none => [.access .teamMembers true]))) ++ [.unlock]

/-- ListTeamMembersEvents is the event trace of `memorystore/store.go`
lines 106–126: `mu.RLock()` with a deferred `mu.RUnlock()`; a read of
teams, a read of teamMembers, and one read of volunteers per member
email copied. -/
def MemStore.ListTeamMembersEvents (s : MemStore) (teamID : String) : List LockEvent :=
  [.rlock, .access .teams false] ++
    (match mapLookup teamID s.teams with
     | none => []
     | some _ =>
       [.access .teamMembers false] ++
         ((mapLookup teamID s.teamMembers).getD []).map (fun _ => .access .volunteers false)) ++
    [.runlock]

/-- RemoveTeamMemberEvents is the event trace of
`memorystore/store.go` lines 128–148: `mu.Lock()` with a deferred
`mu.Unlock()`; reads of teams and of the membership structures along
the checks, and the in-place deletion from the member set on the
success path. -/
def MemStore.RemoveTeamMemberEvents (s : MemStore) (teamID email : String) : List LockEvent :=
  [.lock, .access .teams false] ++
    (match mapLookup teamID s.teams with
     | none => []
     | some _ =>
       [.access .teamMembers false] ++
         (match mapLookup teamID s.teamMembers with
          | none => []
          | some members =>
              [.access .teamMembers false] ++
                (if email ∈ members then [.access .teamMembers true] else []))) ++
    [.unlock]

/-- CountTeamMembersEvents is the event trace of
`memorystore/store.go` lines 150–156: the method takes no lock at all
and directly ranges over the shared teamMembers map (a read access). -/
def MemStore.CountTeamMembersEvents (s : MemStore) : List LockEvent :=
  [.access .teamMembers false]

theorem mapLookup_mapInsert_self {α : Type} (k : String) (v : α) (m : List (String × α)) :
    mapLookup k (mapInsert k v m) = some v := by
  induction m with
  | nil => simp [mapInsert, mapLookup]
  | cons p rest ih =>
      by_cases h : p.1 = k
      · simp [mapInsert, mapLookup, h]
      · simp [mapInsert, mapLookup, h, ih]

theorem mapLookup_mapInsert_ne {α : Type} (k k' : String) (v : α) (m : List (String × α))
    (h : k' ≠ k) : mapLookup k (mapInsert k' v m) = mapLookup k m := by
  induction m with
  | nil => simp [mapInsert, mapLookup, h]
  | cons p rest ih =>
      by_cases hp : p.1 = k'
      · simp [mapInsert, mapLookup, hp, h]
      · simp only [mapInsert, hp, if_false]
        by_cases hk : p.1 = k
        · simp [mapLookup, hk]
        · simp [mapLookup, hk, ih]

theorem mapLookup_append_self {α : Type} (k : String) (v : α) (m : List (String × α))
    (h : mapLookup k m = none) : mapLookup k (m ++ [(k, v)]) = some v := by
  induction m with
  | nil => simp [mapLookup]
  | cons p rest ih =>
      by_cases hp : p.1 = k
      · simp [mapLookup, hp] at h
      · simp only [mapLookup, hp, if_false] at h
        simp [mapLookup, hp, ih h]

theorem mapLookup_mapValues {α β : Type} (f : α → β) (k : String) (m : List (String × α)) :
    mapLookup k (m.map fun p => (p.1, f p.2)) = (mapLookup k m).map f := by
  induction m with
  | nil => simp [mapLookup]
  | cons p rest ih =>
      by_cases hp : p.1 = k
      · simp [mapLookup, hp]
      · simp [mapLookup, hp, ih]

theorem mapLookup_map_key {α : Type} (f : String → α) (k : String) (l : List String) :
    mapLookup k (l.map fun id => (id, f id)) = if k ∈ l then some (f k) else none := by
  induction l with
  | nil => simp [mapLookup]
  | cons a rest ih =>
      by_cases ha : a = k
      · subst ha
        simp [mapLookup]
      · have hka : ¬ k = a := fun h => ha h.symm
        by_cases hk : k ∈ rest
        · simp [mapLookup, ha, ih, hk]
        · simp [mapLookup, ha, ih, hk, hka]

/-- C1state is a concrete in-memory store with team "t" and registered
volunteers "a" and "b", and no memberships yet. -/
def C1state : MemStore :=
  ⟨[("a", ⟨"a", "pa"⟩), ("b", ⟨"b", "pb"⟩)], [("t", ⟨"t", "T"⟩)], []⟩

/-- C1: the claim says that after a successful addTeamMember(t, v1)
followed by a successful addTeamMember(t, v2) the member list contains
both v1 and v2.  The code violates this: both calls succeed, but the
unconditional rebinding at `memorystore/store.go` line 100 replaces the
member set with the singleton of the second email, so
listTeamMembers("t") returns only volunteer "b" (password redacted) and
member "a" is lost.  The claim matches the spec ("set semantics",
"otherwise inserts") and the Store interface contract ("AddTeamMember
adds a new member to the given team"), so this is a bug in the code: a
missing return after the in-place insertion on the existing-set
branch. -/
theorem C1_addTeamMember_discards_existing_members :
    (C1state.AddTeamMember "t" "a").2 = none ∧
    ((C1state.AddTeamMember "t" "a").1.AddTeamMember "t" "b").2 = none ∧
    ((C1state.AddTeamMember "t" "a").1.AddTeamMember "t" "b").1.ListTeamMembers "t"
      = some (.ok (.mk [⟨"b", ""⟩])) := by
  refine ⟨rfl, rfl, rfl⟩

/-- C2state is a concrete in-memory store with team "t" and registered
volunteer "v", and no memberships yet. -/
def C2state : MemStore :=
  ⟨[("v", ⟨"v", "p"⟩)], [("t", ⟨"t", "T"⟩)], []⟩

/-- C2 counterexample: the claim says a team whose last member was
removed is absent from countTeamMembers.  In the in-memory store,
adding "v" to team "t" and then removing it leaves the key "t" bound to
an empty member set, and countTeamMembers then reports "t" with count
0 — present, not absent. -/
theorem C2_counterexample :
    (C2state.AddTeamMember "t" "v").2 = none ∧
    ((C2state.AddTeamMember "t" "v").1.RemoveTeamMember "t" "v").2 = none ∧
    ((C2state.AddTeamMember "t" "v").1.RemoveTeamMember "t" "v").1.teamMembers = [("t", [])] ∧
    mapLookup "t" ((C2state.AddTeamMember "t" "v").1.RemoveTeamMember "t" "v").1.CountTeamMembers
      = some 0 := by
  refine ⟨rfl, rfl, rfl, rfl⟩

/-- C2 amended: in the relational store every team reported by
countTeamMembers has at least one membership row and a team with no
membership rows is absent; in the in-memory store a team is reported
iff a member set is recorded for it, with the set's size as the count —
so a team whose last member was removed via removeTeamMember stays
present with count 0 rather than being absent. -/
theorem C2_countTeamMembers_characterization :
    (∀ (s : MemStore) (t : String),
        mapLookup t s.CountTeamMembers = (mapLookup t s.teamMembers).map List.length) ∧
    (∀ (db : PgDB) (t : String) (n : Nat),
        mapLookup t db.CountTeamMembers = some n → 1 ≤ n) ∧
    (∀ (db : PgDB) (t : String),
        db.team_members.filter (fun r => r.1 = t) = [] →
        mapLookup t db.CountTeamMembers = none) := by
  refine ⟨?_, ?_, ?_⟩
  · intro s t
    simpa [MemStore.CountTeamMembers] using
      mapLookup_mapValues List.length t s.teamMembers
  · intro db t n h
    unfold PgDB.CountTeamMembers at h
    rw [mapLookup_map_key] at h
    by_cases hmem : t ∈ (db.team_members.map Prod.fst).dedup
    · rw [if_pos hmem] at h
      obtain ⟨r, hr, hr1⟩ := List.mem_map.mp (List.mem_dedup.mp hmem)
      have hrf : r ∈ db.team_members.filter (fun r => r.1 = t) :=
        List.mem_filter.mpr ⟨hr, by simp [hr1]⟩
      have hpos : 0 < (db.team_members.filter (fun r => r.1 = t)).length :=
        List.length_pos.mpr (fun hnil => by simp [hnil] at hrf)
      have hn : (db.team_members.filter (fun r => r.1 = t)).length = n :=
        Option.some_injective _ h
      omega
    · rw [if_neg hmem] at h
      exact absurd h (by simp)
  · intro db t hfil
    unfold PgDB.CountTeamMembers
    rw [mapLookup_map_key]
    refine if_neg (fun hmem => ?_)
    obtain ⟨r, hr, hr1⟩ := List.mem_map.mp (List.mem_dedup.mp hmem)
    have hrf : r ∈ db.team_members.filter (fun r => r.1 = t) :=
      List.mem_filter.mpr ⟨hr, by simp [hr1]⟩
    simp [hfil] at hrf

/-- C2db is a concrete database with one membership row for team "t". -/
def C2db : PgDB := ⟨[("v", "p")], [("t", "T")], [("t", "v")]⟩

/-- C2 witness: the amended characterization evaluated on concrete
stores — team "t" with one membership row gets count 1 (≥ 1) and a team
"x" without membership rows is absent. -/
theorem C2_countTeamMembers_characterization_witness :
    1 ≤ 1 ∧ mapLookup "x" C2db.CountTeamMembers = none :=
  ⟨C2_countTeamMembers_characterization.2.1 C2db "t" 1 (by decide),
   C2_countTeamMembers_characterization.2.2 C2db "x" (by decide)⟩

/-- C3db0 is the empty database: no teams at all. -/
def C3db0 : PgDB := ⟨[], [], []⟩

/-- C3db1 is a database in which team "t" exists but has no
membership rows. -/
def C3db1 : PgDB := ⟨[], [("t", "T")], []⟩

/-- C3: the claim (and the Store interface contract, `api.go` lines
65–69: "ErrNotFound is to be returned when the team is unknown") says
listTeamMembers fails with NotFound for a nonexistent team in every
implementation, and succeeds with a non-nil empty sequence for an
existing team with no members.  The relational implementation violates
both parts: it runs a join with no team-existence check, so for a
nonexistent team it succeeds (no NotFound), and for an existing team
with no membership rows the destination slice is left nil (absent),
not a non-nil empty sequence.  The in-memory implementation does
satisfy all three parts of the claim, proved here as well: unknown
team → NotFound, existing team with no recorded member set → non-nil
empty slice, and every returned volunteer has an empty password. -/
theorem C3_listTeamMembers_contract :
    C3db0.ListTeamMembers "t" = .ok .nil ∧
    C3db1.ListTeamMembers "t" = .ok .nil ∧
    (∀ (s : MemStore) (t : String), mapLookup t s.teams = none →
        s.ListTeamMembers t = some (.error .notFound)) ∧
    (∀ (s : MemStore) (t : String) (T : Team), mapLookup t s.teams = some T →
        mapLookup t s.teamMembers = none →
        s.ListTeamMembers t = some (.ok (.mk []))) ∧
    (∀ (s : MemStore) (t : String) (sl : GoSlice Volunteer),
        s.ListTeamMembers t = some (.ok sl) → ∀ v ∈ sl.toList, v.password = "") := by
  refine ⟨rfl, rfl, ?_, ?_, ?_⟩
  · intro s t h
    unfold MemStore.ListTeamMembers
    rw [h]
  · intro s t T hteam hmem
    unfold MemStore.ListTeamMembers
    rw [hteam, hmem]
    rfl
  · intro s t sl h v hv
    cases hteam : mapLookup t s.teams with
    | none =>
        simp [MemStore.ListTeamMembers, hteam] at h
    | some T =>
        cases hderef : derefVolunteers s.volunteers ((mapLookup t s.teamMembers).getD []) with
        | none =>
            simp [MemStore.ListTeamMembers, hteam, hderef] at h
        | some vols =>
            simp [MemStore.ListTeamMembers, hteam, hderef] at h
            subst h
            simp only [GoSlice.toList] at hv
            obtain ⟨w, hw, hwv⟩ := List.mem_map.mp hv
            rw [← hwv]

/-- C3 witness: the in-memory parts of the contract evaluated on a
concrete store with team "t" and no members, and on a store without
team "t". -/
theorem C3_listTeamMembers_contract_witness :
    MemStore.empty.ListTeamMembers "t" = some (.error .notFound) ∧
    (MemStore.mk [] [("t", ⟨"t", "T"⟩)] []).ListTeamMembers "t" = some (.ok (.mk [])) :=
  ⟨C3_listTeamMembers_contract.2.2.1 MemStore.empty "t" (by decide),
   C3_listTeamMembers_contract.2.2.2.1 (MemStore.mk [] [("t", ⟨"t", "T"⟩)] []) "t"
     ⟨"t", "T"⟩ (by decide) (by decide)⟩

/-- C4 counterexample: the claim asserts there exists an in-memory
store state with the team present, the volunteer email absent and no
member set recorded, in which addTeamMember succeeds.  No such state
exists: the volunteer-existence check at `memorystore/store.go` lines
87–90 runs unconditionally, before any member-set branching, so the
call always fails there. -/
theorem C4_counterexample :
    ¬ ∃ (s : MemStore) (t e : String),
        (mapLookup t s.teams).isSome = true ∧
        mapLookup e s.volunteers = none ∧
        mapLookup t s.teamMembers = none ∧
        (s.AddTeamMember t e).2 = none := by
  rintro ⟨s, t, e, hteam, hvol, hmem, hok⟩
  obtain ⟨T, hT⟩ := Option.isSome_iff_exists.mp hteam
  unfold MemStore.AddTeamMember at hok
  rw [hT, hvol] at hok
  simp at hok

/-- C4 amended: the in-memory addTeamMember verifies volunteer
existence unconditionally — in every state in which the volunteer email
is absent (whether or not a member set is recorded for the team) the
call fails with NotFound and leaves the store unchanged. -/
theorem C4_addTeamMember_requires_volunteer :
    ∀ (s : MemStore) (t e : String), mapLookup e s.volunteers = none →
      s.AddTeamMember t e = (s, some .notFound) := by
  intro s t e hvol
  unfold MemStore.AddTeamMember
  cases hteam : mapLookup t s.teams with
  | none => rfl
  | some T => rw [hvol]

/-- C4 witness: the amended statement evaluated on a concrete store in
which team "t" exists, the volunteer email "e" is absent and no member
set is recorded for "t" — exactly the configuration of the refuted
claim. -/
theorem C4_addTeamMember_requires_volunteer_witness :
    (MemStore.mk [] [("t", ⟨"t", "T"⟩)] []).AddTeamMember "t" "e"
      = (MemStore.mk [] [("t", ⟨"t", "T"⟩)] [], some .notFound) :=
  C4_addTeamMember_requires_volunteer (MemStore.mk [] [("t", ⟨"t", "T"⟩)] []) "t" "e" (by decide)

/-- C5: in both stores, a never-seen email is created on the first
authenticateOrCreate and stored; a second call with the same password
succeeds and leaves the store exactly as it was; a call with any other
password fails with PasswordMismatch (and, the state being returned
unchanged, modifies nothing). -/
theorem C5_authenticateOrCreate_lifecycle :
    (∀ (s : MemStore) (e p : String), mapLookup e s.volunteers = none →
      (s.AuthenticateOrCreateVolunteerAccount ⟨e, p⟩).2 = none ∧
      mapLookup e (s.AuthenticateOrCreateVolunteerAccount ⟨e, p⟩).1.volunteers = some ⟨e, p⟩ ∧
      ((s.AuthenticateOrCreateVolunteerAccount ⟨e, p⟩).1.AuthenticateOrCreateVolunteerAccount ⟨e, p⟩)
        = ((s.AuthenticateOrCreateVolunteerAccount ⟨e, p⟩).1, none) ∧
      ∀ p' : String, p' ≠ p →
        ((s.AuthenticateOrCreateVolunteerAccount ⟨e, p⟩).1.AuthenticateOrCreateVolunteerAccount ⟨e, p'⟩)
          = ((s.AuthenticateOrCreateVolunteerAccount ⟨e, p⟩).1, some .passwordMismatch)) ∧
    (∀ (db : PgDB) (e p : String), mapLookup e db.volunteers = none →
      ∃ db', db.AuthenticateOrCreateVolunteerAccount ⟨e, p⟩ = .ok db' ∧
        mapLookup e db'.volunteers = some p ∧
        db'.AuthenticateOrCreateVolunteerAccount ⟨e, p⟩ = .ok db' ∧
        ∀ p' : String, p' ≠ p →
          db'.AuthenticateOrCreateVolunteerAccount ⟨e, p'⟩ = .error .passwordMismatch) := by
  constructor
  · intro s e p h
    have h1 : s.AuthenticateOrCreateVolunteerAccount ⟨e, p⟩
        = ({ s with volunteers := mapInsert e ⟨e, p⟩ s.volunteers }, none) := by
      simp [MemStore.AuthenticateOrCreateVolunteerAccount, h]
    have hl : mapLookup e (mapInsert e (⟨e, p⟩ : Volunteer) s.volunteers) = some ⟨e, p⟩ :=
      mapLookup_mapInsert_self e ⟨e, p⟩ s.volunteers
    refine ⟨by rw [h1], by rw [h1]; exact hl, ?_, ?_⟩
    · rw [h1]
      simp [MemStore.AuthenticateOrCreateVolunteerAccount, hl]
    · intro p' hp'
      rw [h1]
      simp [MemStore.AuthenticateOrCreateVolunteerAccount, hl, Ne.symm hp']
  · intro db e p h
    have hl : mapLookup e (db.volunteers ++ [(e, p)]) = some p :=
      mapLookup_append_self e p db.volunteers h
    refine ⟨{ db with volunteers := db.volunteers ++ [(e, p)] }, ?_, hl, ?_, ?_⟩
    · simp [PgDB.AuthenticateOrCreateVolunteerAccount, h]
    · simp [PgDB.AuthenticateOrCreateVolunteerAccount, hl]
    · intro p' hp'
      simp [PgDB.AuthenticateOrCreateVolunteerAccount, hl, Ne.symm hp']

/-- C5 witness: the lifecycle evaluated at the concrete email "e" with
password "p" and mismatching password "q" on the empty in-memory
store. -/
theorem C5_authenticateOrCreate_lifecycle_witness :
    (MemStore.empty.AuthenticateOrCreateVolunteerAccount ⟨"e", "p"⟩).2 = none ∧
    ((MemStore.empty.AuthenticateOrCreateVolunteerAccount ⟨"e", "p"⟩).1.AuthenticateOrCreateVolunteerAccount ⟨"e", "q"⟩)
      = ((MemStore.empty.AuthenticateOrCreateVolunteerAccount ⟨"e", "p"⟩).1, some .passwordMismatch) :=
  ⟨(C5_authenticateOrCreate_lifecycle.1 MemStore.empty "e" "p" (by decide)).1,
   (C5_authenticateOrCreate_lifecycle.1 MemStore.empty "e" "p" (by decide)).2.2.2 "q" (by decide)⟩

/-- C6: every read path redacts the password — getVolunteerByEmail in
both stores fails with NotFound on an absent email and otherwise
returns a volunteer whose password field is empty, and every element
returned by listTeamMembers in both stores has an empty password
field. -/
theorem C6_password_never_returned :
    (∀ (s : MemStore) (e : String), mapLookup e s.volunteers = none →
        s.GetVolunteerByEmail e = .error .notFound) ∧
    (∀ (s : MemStore) (e : String) (v : Volunteer),
        s.GetVolunteerByEmail e = .ok v → v.password = "") ∧
    (∀ (db : PgDB) (e : String), mapLookup e db.volunteers = none →
        db.GetVolunteerByEmail e = .error .notFound) ∧
    (∀ (db : PgDB) (e : String) (v : Volunteer),
        db.GetVolunteerByEmail e = .ok v → v.password = "") ∧
    (∀ (s : MemStore) (t : String) (sl : GoSlice Volunteer),
        s.ListTeamMembers t = some (.ok sl) → ∀ v ∈ sl.toList, v.password = "") ∧
    (∀ (db : PgDB) (t : String) (sl : GoSlice Volunteer),
        db.ListTeamMembers t = .ok sl → ∀ v ∈ sl.toList, v.password = "") := by
  refine ⟨?_, ?_, ?_, ?_, ?_, ?_⟩
  · intro s e h
    simp [MemStore.GetVolunteerByEmail, h]
  · intro s e v h
    cases hl : mapLookup e s.volunteers with
    | none => simp [MemStore.GetVolunteerByEmail, hl] at h
    | some w =>
        simp [MemStore.GetVolunteerByEmail, hl] at h
        rw [← h]
  · intro db e h
    simp [PgDB.GetVolunteerByEmail, h]
  · intro db e v h
    cases hl : mapLookup e db.volunteers with
    | none => simp [PgDB.GetVolunteerByEmail, hl] at h
    | some pw =>
        simp [PgDB.GetVolunteerByEmail, hl] at h
        rw [← h]
  · intro s t sl h v hv
    cases hteam : mapLookup t s.teams with
    | none =>
        simp [MemStore.ListTeamMembers, hteam] at h
    | some T =>
        cases hderef : derefVolunteers s.volunteers ((mapLookup t s.teamMembers).getD []) with
        | none =>
            simp [MemStore.ListTeamMembers, hteam, hderef] at h
        | some vols =>
            simp [MemStore.ListTeamMembers, hteam, hderef] at h
            subst h
            simp only [GoSlice.toList] at hv
            obtain ⟨w, hw, hwv⟩ := List.mem_map.mp hv
            rw [← hwv]
  · intro db t sl h v hv
    simp only [PgDB.ListTeamMembers] at h
    cases hemails : (db.team_members.filter fun r => r.1 = t).filterMap
        (fun r => (mapLookup r.2 db.volunteers).map fun _ => r.2) with
    | nil =>
        rw [hemails] at h
        simp at h
        subst h
        simp [GoSlice.toList] at hv
    | cons a rest =>
        rw [hemails] at h
        simp at h
        subst h
        simp only [GoSlice.toList] at hv
        rcases List.mem_cons.mp hv with h1 | h2
        · rw [h1]
        · obtain ⟨w, hw, hwv⟩ := List.mem_map.mp h2
          rw [← hwv]

/-- C6state is a concrete in-memory store with a stored password for
volunteer "v", member of team "t". -/
def C6state : MemStore :=
  ⟨[("v", ⟨"v", "secret"⟩)], [("t", ⟨"t", "T"⟩)], [("t", ["v"])]⟩

/-- C6 witness: the redaction statements evaluated on a concrete store
holding the password "secret" for volunteer "v": the read paths return
the volunteer with an empty password, and an absent email yields
NotFound. -/
theorem C6_password_never_returned_witness :
    MemStore.empty.GetVolunteerByEmail "x" = .error .notFound ∧
    (⟨"v", ""⟩ : Volunteer).password = "" ∧
    (⟨"v", ""⟩ : Volunteer).password = "" :=
  ⟨C6_password_never_returned.1 MemStore.empty "x" (by decide),
   C6_password_never_returned.2.1 C6state "v" ⟨"v", ""⟩ (by rfl),
   C6_password_never_returned.2.2.2.2.1 C6state "t" (.mk [⟨"v", ""⟩]) (by rfl)
     ⟨"v", ""⟩ (by decide)⟩

theorem AuthenticateOrCreateVolunteerAccount_teams_eq (s : MemStore) (v : Volunteer) :
    (s.AuthenticateOrCreateVolunteerAccount v).1.teams = s.teams := by
  unfold MemStore.AuthenticateOrCreateVolunteerAccount
  cases h1 : mapLookup v.email s.volunteers with
  | none => simp
  | some w => by_cases hp : w.password ≠ v.password <;> simp [hp]

theorem AddTeamMember_teams_eq (s : MemStore) (a b : String) :
    (s.AddTeamMember a b).1.teams = s.teams := by
  unfold MemStore.AddTeamMember
  cases h1 : mapLookup a s.teams with
  | none => simp
  | some _ =>
      cases h2 : mapLookup b s.volunteers with
      | none => simp
      | some _ =>
          cases h3 : mapLookup a s.teamMembers with
          | some members => by_cases hmem : b ∈ members <;> simp [hmem]
          | none => simp

theorem RemoveTeamMember_teams_eq (s : MemStore) (a b : String) :
    (s.RemoveTeamMember a b).1.teams = s.teams := by
  unfold MemStore.RemoveTeamMember
  cases h1 : mapLookup a s.teams with
  | none => simp
  | some _ =>
      cases h2 : mapLookup a s.teamMembers with
      | none => simp
      | some members => by_cases hmem : b ∈ members <;> simp [hmem]

theorem CreateTeam_preserves_team (s : MemStore) (id : String) (T : Team) (t2 : Team)
    (h : mapLookup id s.teams = some T) :
    mapLookup id (s.CreateTeam t2).1.teams = some T := by
  unfold MemStore.CreateTeam
  cases h2 : mapLookup t2.id s.teams with
  | some _ => simpa using h
  | none =>
      have hne : t2.id ≠ id := by
        intro he
        rw [he, h] at h2
        exact Option.noConfusion h2
      simpa [mapLookup_mapInsert_ne id t2.id t2 s.teams hne] using h

theorem runMutOp_preserves_team (s : MemStore) (id : String) (T : Team)
    (h : mapLookup id s.teams = some T) (op : MutOp) :
    mapLookup id (s.runMutOp op).1.teams = some T := by
  cases op with
  | auth v =>
      simp only [MemStore.runMutOp, AuthenticateOrCreateVolunteerAccount_teams_eq]
      exact h
  | createTeam t2 =>
      simpa only [MemStore.runMutOp] using CreateTeam_preserves_team s id T t2 h
  | addTeamMember a b =>
      simp only [MemStore.runMutOp, AddTeamMember_teams_eq]
      exact h
  | removeTeamMember a b =>
      simp only [MemStore.runMutOp, RemoveTeamMember_teams_eq]
      exact h

/-- C7: a team stored by createTeam is stored verbatim — getTeamByID
returns exactly the id and name supplied — a second createTeam with the
same id fails with AlreadyExists and leaves the store unchanged, and no
operation of the store ever changes or removes a stored team, so these
statements keep holding later; the same holds in the relational
store. -/
theorem C7_createTeam_contract :
    (∀ (s : MemStore) (T : Team), mapLookup T.id s.teams = none →
        (s.CreateTeam T).2 = none ∧ mapLookup T.id (s.CreateTeam T).1.teams = some T) ∧
    (∀ (s : MemStore) (T : Team), mapLookup T.id s.teams = some T →
        (∀ T2 : Team, T2.id = T.id → s.CreateTeam T2 = (s, some .alreadyExists)) ∧
        s.GetTeamByID T.id = .ok T ∧
        (∀ op : MutOp, mapLookup T.id (s.runMutOp op).1.teams = some T)) ∧
    (∀ (db : PgDB) (T : Team), mapLookup T.id db.teams = none →
        ∃ db', db.CreateTeam T = .ok db' ∧ mapLookup T.id db'.teams = some T.name ∧
          (∀ T2 : Team, T2.id = T.id → db'.CreateTeam T2 = .error .alreadyExists) ∧
          db'.GetTeamByID T.id = .ok T) := by
  refine ⟨?_, ?_, ?_⟩
  · intro s T h
    constructor
    · simp [MemStore.CreateTeam, h]
    · simp [MemStore.CreateTeam, h, mapLookup_mapInsert_self]
  · intro s T h
    refine ⟨?_, ?_, fun op => runMutOp_preserves_team s T.id T h op⟩
    · intro T2 h2
      unfold MemStore.CreateTeam
      rw [h2, h]
    · unfold MemStore.GetTeamByID
      rw [h]
  · intro db T h
    have hl : mapLookup T.id (db.teams ++ [(T.id, T.name)]) = some T.name :=
      mapLookup_append_self T.id T.name db.teams h
    refine ⟨{ db with teams := db.teams ++ [(T.id, T.name)] }, ?_, hl, ?_, ?_⟩
    · simp [PgDB.CreateTeam, h]
    · intro T2 h2
      unfold PgDB.CreateTeam
      rw [h2]
      simp [hl]
    · unfold PgDB.GetTeamByID
      simp [hl]

/-- C7 witness: the contract evaluated at the concrete team
("gophers", "The Gophers") on the empty in-memory store and on the
empty database. -/
theorem C7_createTeam_contract_witness :
    (MemStore.empty.CreateTeam ⟨"gophers", "The Gophers"⟩).2 = none ∧
    ((MemStore.mk [] [("gophers", ⟨"gophers", "The Gophers"⟩)] []).CreateTeam ⟨"gophers", "X"⟩
      = (MemStore.mk [] [("gophers", ⟨"gophers", "The Gophers"⟩)] [], some .alreadyExists)) ∧
    (∃ db', (PgDB.mk [] [] []).CreateTeam ⟨"gophers", "The Gophers"⟩ = .ok db' ∧
      mapLookup "gophers" db'.teams = some "The Gophers" ∧
      (∀ T2 : Team, T2.id = "gophers" → db'.CreateTeam T2 = .error .alreadyExists) ∧
      db'.GetTeamByID "gophers" = .ok ⟨"gophers", "The Gophers"⟩) :=
  ⟨(C7_createTeam_contract.1 MemStore.empty ⟨"gophers", "The Gophers"⟩ (by decide)).1,
   (C7_createTeam_contract.2.1 (MemStore.mk [] [("gophers", ⟨"gophers", "The Gophers"⟩)] [])
      ⟨"gophers", "The Gophers"⟩ (by decide)).1 ⟨"gophers", "X"⟩ (by decide),
   C7_createTeam_contract.2.2 (PgDB.mk [] [] []) ⟨"gophers", "The Gophers"⟩ (by decide)⟩

/-- C8: for the two membership-mutation endpoints, whenever the token
email extraction fails (missing or unparseable token) or the extracted
email differs from the path email parameter, the request is rejected
with Unauthorized and the list of Store calls made is empty: neither
AddTeamMember nor RemoveTeamMember is ever invoked. -/
theorem C8_membership_mutation_requires_matching_email :
    ∀ (s : MemStore) (user : ContextUser) (teamID emailParam : String),
      (GetEmailFromJWTToken user).2 = false ∨ (GetEmailFromJWTToken user).1 ≠ emailParam →
        putTeamMemberEndpoint s user teamID emailParam = ([], .unauthorized) ∧
        deleteTeamMemberEndpoint s user teamID emailParam = ([], .unauthorized) := by
  intro s user teamID emailParam h
  rcases h with h | h
  · constructor <;>
      simp [putTeamMemberEndpoint, deleteTeamMemberEndpoint, limitEmailToCurrentUser, h]
  · constructor <;>
      simp [putTeamMemberEndpoint, deleteTeamMemberEndpoint, limitEmailToCurrentUser, h]

/-- C8 witness: the rejection evaluated at concrete requests — a
request with no token in the context, and a request whose token binds
"alice" while the path parameter is "bob". -/
theorem C8_membership_mutation_requires_matching_email_witness :
    (putTeamMemberEndpoint MemStore.empty .absent "t" "bob" = ([], .unauthorized) ∧
     deleteTeamMemberEndpoint MemStore.empty .absent "t" "bob" = ([], .unauthorized)) ∧
    (putTeamMemberEndpoint MemStore.empty (.tokenEmail "alice") "t" "bob" = ([], .unauthorized) ∧
     deleteTeamMemberEndpoint MemStore.empty (.tokenEmail "alice") "t" "bob" = ([], .unauthorized)) :=
  ⟨C8_membership_mutation_requires_matching_email MemStore.empty .absent "t" "bob"
     (Or.inl (by decide)),
   C8_membership_mutation_requires_matching_email MemStore.empty (.tokenEmail "alice") "t" "bob"
     (Or.inr (by decide))⟩

theorem guardedFrom_volunteer_reads (l : List String) :
    guardedFrom false 1 ((l.map fun _ => LockEvent.access .volunteers false) ++ [.runlock])
      = true := by
  induction l with
  | nil => rfl
  | cons a rest ih => simpa [guardedFrom] using ih

/-- C9: the lock discipline of the in-memory store, checked on the
event traces transcribed from the code.  Every operation except
CountTeamMembers accesses the shared maps only with the reader/writer
lock held in the appropriate mode; CountTeamMembers, however, takes no
lock at all — its trace has an unguarded read of the shared teamMembers
map in every state, refuting the claim for that operation (a data race
with any concurrent writer). -/
theorem C9_lock_discipline :
    (∀ (s : MemStore) (v : Volunteer),
        guarded (s.AuthenticateOrCreateVolunteerAccountEvents v) = true) ∧
    (∀ (s : MemStore) (e : String), guarded (s.GetVolunteerByEmailEvents e) = true) ∧
    (∀ (s : MemStore) (t : Team), guarded (s.CreateTeamEvents t) = true) ∧
    (∀ (s : MemStore) (i : String), guarded (s.GetTeamByIDEvents i) = true) ∧
    (∀ (s : MemStore) (a b : String), guarded (s.AddTeamMemberEvents a b) = true) ∧
    (∀ (s : MemStore) (t : String), guarded (s.ListTeamMembersEvents t) = true) ∧
    (∀ (s : MemStore) (a b : String), guarded (s.RemoveTeamMemberEvents a b) = true) ∧
    (∀ s : MemStore, guarded s.CountTeamMembersEvents = false) := by
  refine ⟨?_, ?_, ?_, ?_, ?_, ?_, ?_, ?_⟩
  · intro s v
    unfold MemStore.AuthenticateOrCreateVolunteerAccountEvents
    cases mapLookup v.email s.volunteers <;> rfl
  · intro s e
    rfl
  · intro s t
    unfold MemStore.CreateTeamEvents
    cases mapLookup t.id s.teams <;> rfl
  · intro s i
    rfl
  · intro s a b
    unfold MemStore.AddTeamMemberEvents
    cases mapLookup a s.teams with
    | none => rfl
    | some _ =>
        cases mapLookup b s.volunteers with
        | none => rfl
        | some _ =>
            cases mapLookup a s.teamMembers with
            | some members => by_cases hmem : b ∈ members <;> simp [hmem, guarded, guardedFrom]
            | none => rfl
  · intro s t
    unfold MemStore.ListTeamMembersEvents
    cases mapLookup t s.teams with
    | none => rfl
    | some _ =>
        simpa [guarded, guardedFrom] using
          guardedFrom_volunteer_reads ((mapLookup t s.teamMembers).getD [])
  · intro s a b
    unfold MemStore.RemoveTeamMemberEvents
    cases mapLookup a s.teams with
    | none => rfl
    | some _ =>
        cases mapLookup a s.teamMembers with
        | none => rfl
        | some members => by_cases hmem : b ∈ members <;> simp [hmem, guarded, guardedFrom]
  · intro s
    rfl

/-- C10: the mutating operations of the in-memory store are atomic on
error — whenever an operation returns an error, the store it returns is
exactly the store it was given: no map was touched. -/
theorem C10_errors_are_atomic :
    ∀ (s : MemStore) (op : MutOp) (e : StoreError),
      (s.runMutOp op).2 = some e → (s.runMutOp op).1 = s := by
  intro s op e h
  cases op with
  | auth v =>
      simp only [MemStore.runMutOp] at h ⊢
      unfold MemStore.AuthenticateOrCreateVolunteerAccount at h ⊢
      cases h1 : mapLookup v.email s.volunteers with
      | none => simp [h1] at h
      | some w => by_cases hp : w.password ≠ v.password <;> simp [h1, hp]
  | createTeam t2 =>
      simp only [MemStore.runMutOp] at h ⊢
      unfold MemStore.CreateTeam at h ⊢
      cases h1 : mapLookup t2.id s.teams with
      | none => simp [h1] at h
      | some _ => simp [h1]
  | addTeamMember a b =>
      simp only [MemStore.runMutOp] at h ⊢
      unfold MemStore.AddTeamMember at h ⊢
      cases h1 : mapLookup a s.teams with
      | none => simp [h1]
      | some _ =>
          cases h2 : mapLookup b s.volunteers with
          | none => simp [h1, h2]
          | some _ =>
              cases h3 : mapLookup a s.teamMembers with
              | some members =>
                  by_cases hmem : b ∈ members
                  · simp [h1, h2, h3, hmem]
                  · simp [h1, h2, h3, hmem] at h
              | none => simp [h1, h2, h3] at h
  | removeTeamMember a b =>
      simp only [MemStore.runMutOp] at h ⊢
      unfold MemStore.RemoveTeamMember at h ⊢
      cases h1 : mapLookup a s.teams with
      | none => simp [h1]
      | some _ =>
          cases h2 : mapLookup a s.teamMembers with
          | none => simp [h1, h2]
          | some members =>
              by_cases hmem : b ∈ members
              · simp [h1, h2, hmem] at h
              · simp [h1, h2, hmem]

/-- C10 witness: an erroring operation evaluated concretely — creating
team "t" twice fails with AlreadyExists and leaves the store equal to
what it was. -/
theorem C10_errors_are_atomic_witness :
    ((MemStore.mk [] [("t", ⟨"t", "T"⟩)] []).runMutOp (.createTeam ⟨"t", "X"⟩)).2
      = some .alreadyExists ∧
    ((MemStore.mk [] [("t", ⟨"t", "T"⟩)] []).runMutOp (.createTeam ⟨"t", "X"⟩)).1
      = MemStore.mk [] [("t", ⟨"t", "T"⟩)] [] :=
  ⟨by decide,
   C10_errors_are_atomic (MemStore.mk [] [("t", ⟨"t", "T"⟩)] []) (.createTeam ⟨"t", "X"⟩)
     .alreadyExists (by decide)⟩
